import Mathlib

/-!
Verification of the Chronomancy entropy pipeline and commit-reveal client.

This file gives a shallow embedding of the code in `miniapp/js/browser-entropy.js`
and `miniapp/js/api.js`, of the canonical constants in `canon.yaml`, and — for the
components whose implementation is not part of the sources (the Mixer acceptance
policy, the PCQNG state machine and the LFSR corrector) — models built from the
specification's own description, marked `Modelled from the spec:` below.

Conventions: JavaScript numbers are embedded as ℕ/ℤ/ℚ as appropriate; `Uint32Array`
element assignment is modelled as reduction mod 2^32; SHA3-256 (`crypto.subtle.digest`)
is an external primitive and is embedded as an explicit function parameter `digest`.
-/

/-! ### Epoch timing (browser-entropy.js, Config section and currentEpoch) -/

/-- `const EPOCH_LENGTH_MS = 10_000` from browser-entropy.js. -/
def EPOCH_LENGTH_MS : ℕ := 10000

/-- `const DELTA_BATCH = 1024` from browser-entropy.js: number of uint32 deltas per trace. -/
def DELTA_BATCH : ℕ := 1024

/-- `currentEpoch() { return Math.floor(Date.now() / EPOCH_LENGTH_MS); }`.
`Date.now()` returns an integral count of milliseconds, embedded as `nowMs : ℕ`;
`Math.floor` of a nonnegative quotient is ℕ division. -/
def currentEpoch (nowMs : ℕ) : ℕ := nowMs / EPOCH_LENGTH_MS

/-! ### API client (api.js, ChromomancyAPI.request) -/

/-- An HTTP response as seen by `ChromomancyAPI.request` once `fetch` has resolved:
a status code, a status text and a parsed JSON body (the `response.json()` payload,
abstracted as `α`; transport-level failures happen before this code runs and are
outside the model). -/
structure HttpResponse (α : Type) where
  status : ℕ
  statusText : String
  body : α

/-- `response.ok` per the WHATWG fetch specification: status in the range 200..299. -/
def respOk {α : Type} (r : HttpResponse α) : Bool :=
  decide (200 ≤ r.status) && decide (r.status < 300)

/-- The exception thrown by `request`: `new Error(\x7bAPI Error: status statusText\x7d)`. -/
inductive ApiFailure where
  | apiError (status : ℕ) (statusText : String)
deriving DecidableEq

/-- `ChromomancyAPI.request` response handling:
`if (!response.ok) throw new Error(...); return response.json();`.
A thrown exception is embedded as `Except.error`. -/
def apiRequest {α : Type} (r : HttpResponse α) : Except ApiFailure α :=
  if respOk r then Except.ok r.body else Except.error (ApiFailure.apiError r.status r.statusText)

/-- Whether an `Except` value is an exception. -/
def isErr {ε α : Type} : Except ε α → Bool
  | Except.error _ => true
  | Except.ok _ => false

/-! ### Hex encoding and commit hashing (browser-entropy.js, sha3 and commit phase) -/

/-- One lowercase hex digit, as produced by JavaScript `Number.prototype.toString(16)`. -/
def hexChar (n : ℕ) : Char := if n < 10 then Char.ofNat (48 + n) else Char.ofNat (87 + n)

/-- `b.toString(16).padStart(2, '0')` for a byte `b < 256`. -/
def byteToHex (b : ℕ) : String := String.mk [hexChar (b / 16 % 16), hexChar (b % 16)]

/-- `Array.from(new Uint8Array(digest)).map(b => b.toString(16).padStart(2, '0')).join('')`. -/
def bytesToHex (bs : List ℕ) : String := String.join (bs.map byteToHex)

/-- UTF-8 encoding of a string (`new TextEncoder().encode(s)`), as a byte list. -/
def utf8Bytes (s : String) : List ℕ := s.toUTF8.toList.map (fun b => b.toNat)

/-- `sha3(bytes)`: digest the bytes with SHA3-256 and render the digest as lowercase hex.
The digest primitive (`crypto.subtle.digest('SHA-3-256', ·)`) is the parameter `digest`. -/
def sha3Hex (digest : List ℕ → List ℕ) (bytes : List ℕ) : String := bytesToHex (digest bytes)

/-- The commit phase of `startEntropySession`:
`traceHashHex = sha3(traceBytes)`;
`commitMaterial = TextEncoder.encode(epoch + "|" + nonce + "|" + traceHashHex)`;
`commitHash = sha3(commitMaterial)`. -/
def computeCommitHash (digest : List ℕ → List ℕ) (epoch : ℕ) (nonce : String)
    (traceBytes : List ℕ) : String :=
  sha3Hex digest (utf8Bytes (toString epoch ++ "|" ++ nonce ++ "|" ++ sha3Hex digest traceBytes))

/-! ### Jitter sampling (browser-entropy.js, sampleDeltas) -/

/-- `Math.floor((cur - prev) * 1e6)`: the delta between two `performance.now()` readings
(milliseconds, embedded as ℚ), scaled to microseconds and floored. -/
def microsDelta (prev cur : ℚ) : ℤ := Int.floor ((cur - prev) * 1000000)

/-- Storing an integer into a `Uint32Array` element: reduction modulo 2^32
(ECMAScript ToUint32). -/
def toUint32 (z : ℤ) : ℕ := (z % (2 ^ 32 : ℤ)).toNat

/-- `sampleDeltas(count)`: reads the clock once (`prev = nowMs()`), then on every loop
iteration reads it again and stores `Math.floor((cur - prev) * 1e6)` into the `Uint32Array`,
unconditionally. The successive `performance.now()` readings are the sequence `clock`;
iteration `i` uses readings `clock i` and `clock (i+1)`. -/
def sampleDeltas (clock : ℕ → ℚ) (count : ℕ) : List ℕ :=
  (List.range count).map (fun i => toUint32 (microsDelta (clock i) (clock (i + 1))))

/-! ### Trace bytes (browser-entropy.js, `new Uint8Array(deltas.buffer)`) -/

/-- The four bytes of one uint32, in little-endian order, as laid out in the
backing buffer of a `Uint32Array`. -/
def uint32LEBytes (x : ℕ) : List ℕ :=
  [x % 256, x / 256 % 256, x / 65536 % 256, x / 16777216 % 256]

/-- `traceBytes = new Uint8Array(deltas.buffer)`: the byte view of the delta array,
four bytes per uint32 delta. -/
def traceBytesOfDeltas (deltas : List ℕ) : List ℕ :=
  (deltas.map uint32LEBytes).flatten

/-! ### Commit/reveal session loop (browser-entropy.js, startEntropySession)

The loop body awaits, in order: the beacon nonce request, the jitter sampling,
the commit POST, the IPFS pin (`w3.put`), the WebAuthn signature, and the reveal
POST. There is no try/catch anywhere in `startEntropySession`: a rejection of any
awaited step propagates out of the function and ends the `while (true)` loop.
Each awaited step is recorded as a `SessionEvent`; the network/runtime outcomes
for one epoch are an `EpochNet`. Because the loop sleeps to the next epoch
boundary at the end of each iteration, successive iterations carry successive
epoch ids, which the model reflects by numbering iterations from `startEpoch`. -/

/-- One observable action of the session loop, tagged with the epoch in which it runs. -/
inductive SessionEvent where
  | nonceRequest (epoch : ℕ)
  | sample (epoch : ℕ)
  | commitPost (epoch : ℕ)
  | pin (epoch : ℕ)
  | sign (epoch : ℕ)
  | revealPost (epoch : ℕ)
deriving DecidableEq

/-- Outcomes of the awaited steps of one loop iteration. `Except.error`
(for the API calls) and `none` (for `w3.put` and WebAuthn) are promise rejections. -/
structure EpochNet where
  nonceResult : Except ApiFailure String
  commitResult : Except ApiFailure Unit
  pinResult : Option String
  signResult : Option String
  revealResult : Except ApiFailure Unit

/-- One iteration of the `while (true)` body: the events it performs, and whether it
ran to completion (`true`) or was cut short by an uncaught exception (`false`). -/
def runEpoch (net : EpochNet) (epoch : ℕ) : List SessionEvent × Bool :=
  match net.nonceResult with
  | Except.error _ => ([SessionEvent.nonceRequest epoch], false)
  | Except.ok _ =>
    match net.commitResult with
    | Except.error _ =>
        ([SessionEvent.nonceRequest epoch, SessionEvent.sample epoch,
          SessionEvent.commitPost epoch], false)
    | Except.ok _ =>
      match net.pinResult with
      | none =>
          ([SessionEvent.nonceRequest epoch, SessionEvent.sample epoch,
            SessionEvent.commitPost epoch, SessionEvent.pin epoch], false)
      | some _ =>
        match net.signResult with
        | none =>
            ([SessionEvent.nonceRequest epoch, SessionEvent.sample epoch,
              SessionEvent.commitPost epoch, SessionEvent.pin epoch,
              SessionEvent.sign epoch], false)
        | some _ =>
          match net.revealResult with
          | Except.error _ =>
              ([SessionEvent.nonceRequest epoch, SessionEvent.sample epoch,
                SessionEvent.commitPost epoch, SessionEvent.pin epoch,
                SessionEvent.sign epoch, SessionEvent.revealPost epoch], false)
          | Except.ok _ =>
              ([SessionEvent.nonceRequest epoch, SessionEvent.sample epoch,
                SessionEvent.commitPost epoch, SessionEvent.pin epoch,
                SessionEvent.sign epoch, SessionEvent.revealPost epoch], true)

/-- The `while (true)` loop, fuel-bounded: an uncaught exception in an iteration
ends the whole loop (the async function rejects); otherwise the next iteration
runs in the next epoch. -/
def runSession (nets : ℕ → EpochNet) (startEpoch : ℕ) : ℕ → List SessionEvent
  | 0 => []
  | fuel + 1 =>
    match runEpoch (nets startEpoch) startEpoch with
    | (evs, true) => evs ++ runSession nets (startEpoch + 1) fuel
    | (evs, false) => evs

/-- `startEntropySession(\x7b userId, enabled = true \x7d)`:
`if (!enabled) return;` then
`if (!STORAGE_TOKEN) \x7b console.warn(...); return; \x7d` —
`STORAGE_TOKEN` is `window.env?.WEB3_STORAGE_TOKEN || ''`, so an absent token is the
empty string, which is falsy. Only past both guards does the commit/reveal loop run. -/
def startEntropySession (enabled : Bool) (storageToken : String) (nets : ℕ → EpochNet)
    (startEpoch fuel : ℕ) : List SessionEvent :=
  if enabled = false then []
  else if storageToken = "" then []
  else runSession nets startEpoch fuel

/-- An epoch in which every awaited step succeeds. -/
def okNet : EpochNet :=
  { nonceResult := Except.ok "feedbeef"
    commitResult := Except.ok ()
    pinResult := some "bafycid"
    signResult := some "sig"
    revealResult := Except.ok () }

/-- An epoch in which the reveal POST fails (the server replied non-2xx, so
`API.request('/reveal', ...)` throws). -/
def revealFailNet : EpochNet :=
  { okNet with revealResult := Except.error (ApiFailure.apiError 500 "Internal Server Error") }

/-- A network history where epoch 0's reveal fails and every later epoch would succeed. -/
def netsRevealFail : ℕ → EpochNet := fun n => if n = 0 then revealFailNet else okNet

/-! ### Mixer acceptance policy

Modelled from the spec: the Mixer service itself is not among the sources (only the
constant `entropy_pipeline.public_mesh.honest_entropy_fraction_min: 0.40` in
`canon.yaml`, with the comment "Epoch rejected if revealed deltas <40 %"); the
acceptance rule below follows §4.7 of the spec together with that constant. -/

/-- `honest_entropy_fraction_min` from canon.yaml: 0.40. -/
def honestEntropyFractionMin : ℚ := 2 / 5

/-- `honest_fraction = revealed_count / (revealed_count + substituted_count)`. -/
def honestFraction (revealed substituted : ℕ) : ℚ :=
  (revealed : ℚ) / ((revealed : ℚ) + (substituted : ℚ))

/-- Modelled from the spec: the Mixer publishes the epoch's pulse exactly when the
honest fraction is not below the 0.40 threshold; below it the pulse is rejected. -/
def pulseAccepted (revealed substituted : ℕ) : Bool :=
  decide (honestEntropyFractionMin ≤ honestFraction revealed substituted)

/-! ### PCQNG generator state machine

Modelled from the spec: the PCQNG pipeline implementation (the Python port in `bot/`)
is not among the sources; the model below follows §4.2–§4.3 of the spec with the
canonical constants of `canon.yaml` (`init_to_ramp_threshold: 3`,
`ramp_to_normal_threshold: 1000`, `lpfilter_lengths` 100/1000, ratio thresholds
0.95/1.05) and the port-strategy target mean 130.7. During `Init` the filter value is
seeded with the incoming sample; during `Ramp` the filter runs at the ramp length 100
and the running sum of filtered values is accumulated; on the 1000th ramp step the
divisor is calibrated to `mean / 130.7` and the machine moves to `Normal`, which emits
one clamped e-bit per step and is never left. -/

/-- The generator lifecycle phase. -/
inductive PcqngPhase where
  | phInit
  | phRamp
  | phNormal
deriving DecidableEq

/-- Numeric rank of a phase, for stating that the machine never regresses. -/
def phaseRank : PcqngPhase → ℕ
  | PcqngPhase.phInit => 0
  | PcqngPhase.phRamp => 1
  | PcqngPhase.phNormal => 2

/-- `init_to_ramp_threshold` from canon.yaml. -/
def INIT_STEPS : ℕ := 3

/-- `ramp_to_normal_threshold` from canon.yaml. -/
def RAMP_STEPS : ℕ := 1000

/-- Port-strategy calibration target mean from canon.yaml: 130.7. -/
def TARGET_MEAN : ℚ := 1307 / 10

/-- Generator state: phase, per-phase step counter, adaptive-filter value and
window length, ramp accumulator and quantisation divisor. -/
structure PcqngState where
  phase : PcqngPhase
  procCounter : ℕ
  lpfValue : ℚ
  lpfLength : ℚ
  rampSum : ℚ
  divisor : ℚ

/-- Exponential moving average: `new = (delta + (L - 1) * old) / L`. -/
def lpfStep (old len delta : ℚ) : ℚ := (delta + (len - 1) * old) / len

/-- Fresh generator state: cold start in `Init` with the canonical divisor 33333. -/
def pcqngStart : PcqngState :=
  { phase := PcqngPhase.phInit, procCounter := 0, lpfValue := 0, lpfLength := 100,
    rampSum := 0, divisor := 33333 }

/-- One processed timing sample: state update plus the emitted e-bit (if any). -/
def pcqngStep (delta : ℚ) (s : PcqngState) : PcqngState × Option ℕ :=
  match s.phase with
  | PcqngPhase.phInit =>
    if s.procCounter + 1 = INIT_STEPS then
      ({ s with phase := PcqngPhase.phRamp, procCounter := 0, lpfValue := delta }, none)
    else
      ({ s with procCounter := s.procCounter + 1, lpfValue := delta }, none)
  | PcqngPhase.phRamp =>
    let v := lpfStep s.lpfValue 100 delta
    let sum := s.rampSum + v
    if s.procCounter + 1 = RAMP_STEPS then
      ({ s with phase := PcqngPhase.phNormal, procCounter := 0, lpfValue := v,
                rampSum := sum, divisor := (sum / (RAMP_STEPS : ℚ)) / TARGET_MEAN }, none)
    else
      ({ s with procCounter := s.procCounter + 1, lpfValue := v, rampSum := sum }, none)
  | PcqngPhase.phNormal =>
    let ratio := delta / s.lpfValue
    let len : ℚ := if ratio < 19 / 20 ∨ 21 / 20 < ratio then 1000 else 100
    let v := lpfStep s.lpfValue len delta
    let qFactor := v / s.divisor
    let eBit := (min 255 (max 0 (Int.floor (delta / qFactor + 1 / 2)))).toNat
    ({ s with procCounter := s.procCounter + 1, lpfValue := v, lpfLength := len }, some eBit)

/-- The state after processing the first `n` samples of the stream `deltas`. -/
def pcqngRun (deltas : ℕ → ℚ) : ℕ → PcqngState
  | 0 => pcqngStart
  | n + 1 => (pcqngStep (deltas n) (pcqngRun deltas n)).1

/-- The emission of the step that processes sample `n`. -/
def pcqngOut (deltas : ℕ → ℚ) (n : ℕ) : Option ℕ :=
  (pcqngStep (deltas n) (pcqngRun deltas n)).2

/-! ### LFSR corrector

The step is the Galois implementation documented in `PCQNG_RESEARCH_BRIEF.md` §C2
(`output_bit = lfsr & 1; lfsr >>= 1; if output_bit: lfsr ^= polynomial;
return output_bit ^ input_bit`), with the 63-bit seed `0xAAAAAAAAAAAAAAAA`
(63-bit start value, i.e. reduced mod 2^63) and the feedback taps
`[0, 13, 30, 37, 48]` feeding into bit 62, both from `canon.yaml`. The tap mask
therefore sets bit 62 (the reinjection bit) and the interior tap bits 48, 37, 30, 13;
tap 0 is the output term realised by the conditional XOR itself. -/

/-- The canonical 63-bit LFSR seed: `0xAAAAAAAAAAAAAAAA` reduced to 63 bits
(`0x2AAAAAAAAAAAAAAA`, as listed in the research brief's behaviour data). -/
def lfsrSeed : ℕ := 0xAAAAAAAAAAAAAAAA % 2 ^ 63

/-- The Galois feedback mask for taps `[0, 13, 30, 37, 48]` into bit 62. -/
def lfsrPoly : ℕ := 2 ^ 62 + 2 ^ 48 + 2 ^ 37 + 2 ^ 30 + 2 ^ 13

/-- The register update of one `next_bit` call: shift right; if the bit shifted out
was 1, XOR in the feedback mask. -/
def lfsrStepState (s : ℕ) : ℕ :=
  if s % 2 = 1 then Nat.xor (s / 2) lfsrPoly else s / 2

/-- `next_bit(input_bit)`: the new register state and the corrected output bit
`output_bit XOR input_bit`. -/
def lfsrNextBit (s : ℕ) (inputBit : Bool) : ℕ × Bool :=
  (lfsrStepState s, xor (decide (s % 2 = 1)) inputBit)

/-- The register state after feeding the first `n` bits of `input` through `next_bit`. -/
def lfsrRunStates (seed : ℕ) (input : ℕ → Bool) : ℕ → ℕ
  | 0 => seed
  | n + 1 => (lfsrNextBit (lfsrRunStates seed input n) (input n)).1

/-- The free-running register sequence (same recursion, no input in sight). -/
def lfsrStates (seed : ℕ) : ℕ → ℕ
  | 0 => seed
  | n + 1 => lfsrStepState (lfsrStates seed n)

/-- The number of distinct values in a list. -/
def distinctCount (l : List ℕ) : ℕ :=
  (l.foldl (fun acc a => if a ∈ acc then acc else a :: acc) []).length

/-! ## Theorems -/

/-- C6: at every epoch boundary the epoch identifier computed by the coordinator is
floor(now / 10 s): the epoch length is 10000 ms, and `currentEpoch now` is the unique
integer with `currentEpoch now * 10000 ≤ now < (currentEpoch now + 1) * 10000`. -/
theorem currentEpoch_floor_10s :
    EPOCH_LENGTH_MS = 10000 ∧
    ∀ nowMs : ℕ,
      currentEpoch nowMs * EPOCH_LENGTH_MS ≤ nowMs ∧
      nowMs < (currentEpoch nowMs + 1) * EPOCH_LENGTH_MS := by
  refine ⟨rfl, fun n => ?_⟩
  unfold currentEpoch EPOCH_LENGTH_MS
  omega

/-- C10: `ChromomancyAPI.request` raises an exception exactly when the response status
is not ok (outside 200..299); on an ok status it returns the parsed JSON body. -/
theorem apiRequest_error_iff_not_ok :
    ∀ (α : Type) (r : HttpResponse α),
      (isErr (apiRequest r) = true ↔ ¬(200 ≤ r.status ∧ r.status < 300)) ∧
      (200 ≤ r.status ∧ r.status < 300 → apiRequest r = Except.ok r.body) := by
  intro α r
  by_cases h1 : 200 ≤ r.status
  · by_cases h2 : r.status < 300
    · simp [apiRequest, respOk, isErr, h1, h2]
    · simp [apiRequest, respOk, isErr, h1, h2]
  · simp [apiRequest, respOk, isErr, h1]

/-- Witness for C10: a 200 response yields its body, no exception. -/
theorem apiRequest_error_iff_not_ok_witness :
    apiRequest ⟨200, "OK", (7 : ℕ)⟩ = Except.ok 7 :=
  (apiRequest_error_iff_not_ok ℕ ⟨200, "OK", 7⟩).2 (by decide)

/-- C2: the Mixer rejects an epoch's pulse exactly when the honest fraction
`revealed / (revealed + substituted)` is strictly below 0.40; with 10 participants,
4 reveals (fraction exactly 0.40) are accepted and 3 reveals are rejected. -/
theorem mixer_threshold_boundary :
    (∀ revealed substituted : ℕ,
       pulseAccepted revealed substituted = false ↔
         honestFraction revealed substituted < honestEntropyFractionMin) ∧
    pulseAccepted 4 6 = true ∧ pulseAccepted 3 7 = false := by
  refine ⟨fun r s => ?_, ?_, ?_⟩
  · rw [pulseAccepted, decide_eq_false_iff_not, not_le]
  · rw [pulseAccepted, decide_eq_true_eq]
    norm_num [honestFraction, honestEntropyFractionMin]
  · rw [pulseAccepted, decide_eq_false_iff_not, not_le]
    norm_num [honestFraction, honestEntropyFractionMin]

/-- Witness for C2: the boundary cases at 10 participants. -/
theorem mixer_threshold_boundary_witness :
    pulseAccepted 4 6 = true ∧ pulseAccepted 3 7 = false :=
  ⟨mixer_threshold_boundary.2.1, mixer_threshold_boundary.2.2⟩

/-- C1: the commit hash is a pure function of `(epoch_id, nonce, trace_bytes)` — two
computations agree whenever the inputs agree; in fact it depends on the trace only
through its SHA3 digest. -/
theorem commitHash_deterministic :
    ∀ (digest : List ℕ → List ℕ) (e₁ e₂ : ℕ) (n₁ n₂ : String) (t₁ t₂ : List ℕ),
      e₁ = e₂ → n₁ = n₂ → digest t₁ = digest t₂ →
      computeCommitHash digest e₁ n₁ t₁ = computeCommitHash digest e₂ n₂ t₂ := by
  intro digest e₁ e₂ n₁ n₂ t₁ t₂ he hn ht
  subst he
  subst hn
  unfold computeCommitHash sha3Hex
  rw [ht]

/-- Witness for C1: repeated computation on identical concrete inputs. -/
theorem commitHash_deterministic_witness :
    computeCommitHash (fun l => l) 42 "0d1f" [1, 2, 3] =
      computeCommitHash (fun l => l) 42 "0d1f" [1, 2, 3] :=
  commitHash_deterministic (fun l => l) 42 42 "0d1f" "0d1f" [1, 2, 3] [1, 2, 3] rfl rfl rfl

/-- C4 counterexample: with a clock reporting identical consecutive readings, the
sampler stores and delivers the delta 0 — a non-positive delta reaches downstream
code instead of being discarded and re-sampled. -/
theorem sampleDeltas_zero_delivered_cex :
    sampleDeltas (fun _ => (0 : ℚ)) 3 = [0, 0, 0] ∧
    (0 : ℕ) ∈ sampleDeltas (fun _ => (0 : ℚ)) 3 := by
  have h : sampleDeltas (fun _ => (0 : ℚ)) 3 = [0, 0, 0] := by
    norm_num [sampleDeltas, microsDelta, toUint32, List.range_succ]
  exact ⟨h, by rw [h]; simp⟩

/-- C4 amended: the sampler applies no positivity filter at all — for a monotone
clock whose scaled deltas stay below 2^32, every slot `i` of the output is exactly
`floor((clock (i+1) - clock i) * 1e6)`, zeros included; nothing is discarded and
the output length is always `count`. -/
theorem sampleDeltas_unfiltered (clock : ℕ → ℚ) (count : ℕ)
    (hmono : ∀ i, clock i ≤ clock (i + 1))
    (hbound : ∀ i, (clock (i + 1) - clock i) * 1000000 < 2 ^ 32) :
    (sampleDeltas clock count).length = count ∧
    ∀ i, i < count →
      (sampleDeltas clock count)[i]? =
        some (Int.floor ((clock (i + 1) - clock i) * 1000000)).toNat := by
  constructor
  · simp [sampleDeltas]
  · intro i hi
    have h0 : (0 : ℤ) ≤ Int.floor ((clock (i + 1) - clock i) * 1000000) := by
      apply Int.floor_nonneg.mpr
      have := hmono i
      have hnn : (0 : ℚ) ≤ clock (i + 1) - clock i := by linarith
      positivity
    have hlt : Int.floor ((clock (i + 1) - clock i) * 1000000) < 2 ^ 32 := by
      have hb := hbound i
      exact Int.floor_lt.mpr (by exact_mod_cast hb)
    have hkey : toUint32 (microsDelta (clock i) (clock (i + 1))) =
        (Int.floor ((clock (i + 1) - clock i) * 1000000)).toNat := by
      unfold toUint32 microsDelta
      rw [Int.emod_eq_of_lt h0 (by exact_mod_cast hlt)]
    simp [sampleDeltas, List.getElem?_map, List.getElem?_range, hi, hkey]

/-- Witness for C4 amended: the identity clock in milliseconds delivers the raw
floored microsecond differences. -/
theorem sampleDeltas_unfiltered_witness :
    (sampleDeltas (fun i => (i : ℚ)) 2).length = 2 ∧
    ∀ i, i < 2 →
      (sampleDeltas (fun i => (i : ℚ)) 2)[i]? =
        some (Int.floor ((((i + 1 : ℕ) : ℚ) - ((i : ℕ) : ℚ)) * 1000000)).toNat :=
  sampleDeltas_unfiltered (fun i => (i : ℚ)) 2
    (fun i => by show ((i : ℚ)) ≤ ((i + 1 : ℕ) : ℚ); exact_mod_cast Nat.le_succ i)
    (fun i => by show (((i + 1 : ℕ) : ℚ) - ((i : ℕ) : ℚ)) * 1000000 < 2 ^ 32; push_cast; norm_num)

/-- The byte view of a `Uint32Array` has four bytes per element. -/
theorem traceBytesOfDeltas_length (deltas : List ℕ) :
    (traceBytesOfDeltas deltas).length = 4 * deltas.length := by
  induction deltas with
  | nil => rfl
  | cons d ds ih =>
    have h1 : traceBytesOfDeltas (d :: ds) = uint32LEBytes d ++ traceBytesOfDeltas ds := rfl
    have h2 : (uint32LEBytes d).length = 4 := rfl
    rw [h1, List.length_append, ih, List.length_cons, h2]
    omega

/-- C5 counterexample: the committed trace built from the `DELTA_BATCH = 1024`
sampled deltas is 4096 bytes long, not 1024 bytes. -/
theorem traceBytes_length_cex :
    (traceBytesOfDeltas (List.replicate DELTA_BATCH 0)).length = 4096 ∧
    (traceBytesOfDeltas (List.replicate DELTA_BATCH 0)).length ≠ 1024 := by
  have h := traceBytesOfDeltas_length (List.replicate DELTA_BATCH 0)
  rw [List.length_replicate] at h
  constructor
  · rw [h]; norm_num [DELTA_BATCH]
  · rw [h]; norm_num [DELTA_BATCH]

/-- C5 amended: the trace hashed and committed is the little-endian byte view of the
1024 raw uint32 timing deltas — a fixed-size buffer of 4 × 1024 = 4096 bytes of
uncorrected samples (no LFSR correction, packet assembly or warm-up discard). -/
theorem traceBytes_4096 (deltas : List ℕ) (h : deltas.length = DELTA_BATCH) :
    (traceBytesOfDeltas deltas).length = 4096 := by
  rw [traceBytesOfDeltas_length, h]
  norm_num [DELTA_BATCH]

/-- Witness for C5 amended: a concrete full batch of deltas yields 4096 trace bytes. -/
theorem traceBytes_4096_witness :
    (traceBytesOfDeltas (List.replicate 1024 7)).length = 4096 :=
  traceBytes_4096 (List.replicate 1024 7) (by rw [List.length_replicate, DELTA_BATCH])

/-- C3 counterexample: with the reveal POST of epoch 0 failing and every later epoch
healthy, the session performs exactly one reveal attempt for epoch 0 and then stops —
epoch 1 is never started (no `Missed` bookkeeping, no fresh attempt at the next
epoch boundary). -/
theorem revealFailure_halts_session_cex :
    runSession netsRevealFail 0 2 =
      [SessionEvent.nonceRequest 0, SessionEvent.sample 0, SessionEvent.commitPost 0,
       SessionEvent.pin 0, SessionEvent.sign 0, SessionEvent.revealPost 0] ∧
    SessionEvent.nonceRequest 1 ∉ runSession netsRevealFail 0 2 := by
  decide

/-- C3 amended: a failed awaited step in an epoch terminates the whole session loop —
the trace of a session whose first iteration fails is exactly that iteration's partial
trace, regardless of remaining fuel; and within any single epoch the reveal POST is
attempted at most once (no mid-epoch retry). -/
theorem revealFailure_terminates_loop :
    (∀ (nets : ℕ → EpochNet) (startEpoch fuel : ℕ) (evs : List SessionEvent),
       runEpoch (nets startEpoch) startEpoch = (evs, false) →
       runSession nets startEpoch (fuel + 1) = evs) ∧
    (∀ (net : EpochNet) (epoch : ℕ),
       ((runEpoch net epoch).1.count (SessionEvent.revealPost epoch)) ≤ 1) := by
  constructor
  · intro nets s fuel evs h
    simp [runSession, h]
  · intro net e
    cases hn : net.nonceResult <;> cases hc : net.commitResult <;>
      cases hp : net.pinResult <;> cases hs : net.signResult <;>
      cases hr : net.revealResult <;>
      simp [runEpoch, hn, hc, hp, hs, hr, List.count_cons, List.count_nil]

/-- Witness for C3 amended: the concrete failing history, applied to the theorem. -/
theorem revealFailure_terminates_loop_witness :
    runSession netsRevealFail 0 5 =
      [SessionEvent.nonceRequest 0, SessionEvent.sample 0, SessionEvent.commitPost 0,
       SessionEvent.pin 0, SessionEvent.sign 0, SessionEvent.revealPost 0] :=
  revealFailure_terminates_loop.1 netsRevealFail 0 4
    [SessionEvent.nonceRequest 0, SessionEvent.sample 0, SessionEvent.commitPost 0,
     SessionEvent.pin 0, SessionEvent.sign 0, SessionEvent.revealPost 0] rfl

/-- C9: `startEntropySession` with `enabled` false or with the web3.storage token
absent (empty string) returns before the loop: no sampling, no nonce request, no
commit or reveal POST, no state change — the event trace is empty. -/
theorem session_disabled_no_effects :
    ∀ (enabled : Bool) (storageToken : String) (nets : ℕ → EpochNet) (startEpoch fuel : ℕ),
      enabled = false ∨ storageToken = "" →
      startEntropySession enabled storageToken nets startEpoch fuel = [] := by
  intro enabled token nets s fuel h
  rcases h with h | h
  · simp [startEntropySession, h]
  · cases enabled <;> simp [startEntropySession, h]

/-- Witness for C9: a disabled session performs no effects. -/
theorem session_disabled_no_effects_witness :
    startEntropySession false "sometoken" (fun _ => okNet) 0 3 = [] :=
  session_disabled_no_effects false "sometoken" (fun _ => okNet) 0 3 (Or.inl rfl)

set_option maxRecDepth 40000 in
/-- C8 counterexample: feeding the constant input-bit stream `0` into `next_bit` from
the canonical seed, the first 100 internal register states are 100 pairwise-distinct
values — the register does not oscillate between exactly 2 distinct values. -/
theorem lfsr_constant_input_cex :
    distinctCount ((List.range 100).map (lfsrRunStates lfsrSeed (fun _ => false))) = 100 := by
  decide

set_option maxRecDepth 40000 in
/-- C8 amended: the register update of `next_bit` ignores the input bit entirely
(the input only affects the returned corrected bit), so the state trajectory from the
canonical seed is the same for every input stream — constant or varying — and visits
at least 10 distinct internal states within 100 steps. -/
theorem lfsr_state_input_independent :
    (∀ (s : ℕ) (b₁ b₂ : Bool), (lfsrNextBit s b₁).1 = (lfsrNextBit s b₂).1) ∧
    (∀ input : ℕ → Bool,
       10 ≤ distinctCount ((List.range 100).map (lfsrRunStates lfsrSeed input))) := by
  have hfree : ∀ (input : ℕ → Bool) (n : ℕ),
      lfsrRunStates lfsrSeed input n = lfsrStates lfsrSeed n := by
    intro input n
    induction n with
    | zero => rfl
    | succ n ih => simp [lfsrRunStates, lfsrStates, lfsrNextBit, ih]
  refine ⟨fun s b₁ b₂ => rfl, fun input => ?_⟩
  have hmap : (List.range 100).map (lfsrRunStates lfsrSeed input) =
      (List.range 100).map (lfsrStates lfsrSeed) :=
    List.map_congr_left (fun x _ => hfree input x)
  rw [hmap]
  decide

/-- Phase/counter invariant of the PCQNG state machine: the phase and the per-phase
step counter are a pure function of the number of processed samples — 3 `Init` steps,
then 1000 `Ramp` steps, then `Normal` forever. -/
theorem pcqngRun_phase_counter (deltas : ℕ → ℚ) (n : ℕ) :
    ((pcqngRun deltas n).phase =
       if n < 3 then PcqngPhase.phInit
       else if n < 1003 then PcqngPhase.phRamp
       else PcqngPhase.phNormal) ∧
    ((pcqngRun deltas n).procCounter =
       if n < 3 then n else if n < 1003 then n - 3 else n - 1003) := by
  induction n with
  | zero =>
    constructor <;> simp [pcqngRun, pcqngStart]
  | succ n ih =>
    obtain ⟨hph, hpc⟩ := ih
    have hrun : pcqngRun deltas (n + 1) = (pcqngStep (deltas n) (pcqngRun deltas n)).1 := rfl
    rcases Nat.lt_or_ge n 3 with h1 | h1
    · have hph' : (pcqngRun deltas n).phase = PcqngPhase.phInit := by
        rw [hph]; simp [h1]
      have hpc' : (pcqngRun deltas n).procCounter = n := by
        rw [hpc]; simp [h1]
      by_cases h2 : n + 1 = 3
      · have ha : ¬ (n + 1 < 3) := by omega
        have hb : n + 1 < 1003 := by omega
        constructor
        · rw [hrun]; simp [pcqngStep, hph', hpc', INIT_STEPS, h2, ha, hb]
        · rw [hrun]; simp [pcqngStep, hph', hpc', INIT_STEPS, h2, ha, hb]
      · have ha : n + 1 < 3 := by omega
        constructor
        · rw [hrun]; simp [pcqngStep, hph', hpc', INIT_STEPS, h2, ha]
        · rw [hrun]; simp [pcqngStep, hph', hpc', INIT_STEPS, h2, ha]
    · rcases Nat.lt_or_ge n 1003 with h3 | h3
      · have hph' : (pcqngRun deltas n).phase = PcqngPhase.phRamp := by
          rw [hph]; simp [h3]; omega
        have hpc' : (pcqngRun deltas n).procCounter = n - 3 := by
          rw [hpc]; simp [h3]; omega
        by_cases h2 : n = 1002
        · have ha : ¬ (n + 1 < 3) := by omega
          have hb : ¬ (n + 1 < 1003) := by omega
          have hc : n - 3 + 1 = 1000 := by omega
          constructor
          · rw [hrun]; simp [pcqngStep, hph', hpc', RAMP_STEPS, hc, ha, hb]
          · rw [hrun]; simp [pcqngStep, hph', hpc', RAMP_STEPS, hc, ha, hb]; omega
        · have ha : ¬ (n + 1 < 3) := by omega
          have hb : n + 1 < 1003 := by omega
          have hc : ¬ (n - 3 + 1 = 1000) := by omega
          constructor
          · rw [hrun]; simp [pcqngStep, hph', hpc', RAMP_STEPS, hc, ha, hb]
          · rw [hrun]; simp [pcqngStep, hph', hpc', RAMP_STEPS, hc, ha, hb]; omega
      · have hx : ¬ (n < 3) := by omega
        have hy : ¬ (n < 1003) := by omega
        have hph' : (pcqngRun deltas n).phase = PcqngPhase.phNormal := by
          rw [hph]; simp [hx, hy]
        have hpc' : (pcqngRun deltas n).procCounter = n - 1003 := by
          rw [hpc]; simp [hx, hy]
        have ha : ¬ (n + 1 < 3) := by omega
        have hb : ¬ (n + 1 < 1003) := by omega
        constructor
        · rw [hrun]; simp [pcqngStep, hph', hpc', ha, hb]
        · rw [hrun]; simp [pcqngStep, hph', hpc', ha, hb]; omega

/-- A step taken in the `Init` phase emits no output. -/
theorem pcqngStep_none_of_phInit (d : ℚ) (s : PcqngState)
    (h : s.phase = PcqngPhase.phInit) : (pcqngStep d s).2 = none := by
  unfold pcqngStep
  rw [h]
  by_cases h2 : s.procCounter + 1 = INIT_STEPS <;> simp [h2]

/-- A step taken in the `Ramp` phase emits no output. -/
theorem pcqngStep_none_of_phRamp (d : ℚ) (s : PcqngState)
    (h : s.phase = PcqngPhase.phRamp) : (pcqngStep d s).2 = none := by
  unfold pcqngStep
  rw [h]
  by_cases h2 : s.procCounter + 1 = RAMP_STEPS <;> simp [h2]

/-- A step taken in the `Normal` phase emits an e-bit. -/
theorem pcqngStep_some_of_phNormal (d : ℚ) (s : PcqngState)
    (h : s.phase = PcqngPhase.phNormal) : ((pcqngStep d s).2).isSome = true := by
  unfold pcqngStep
  rw [h]
  simp

/-- C7: on any sample stream, the generator's phase visits exactly 3 `Init` steps
(samples 0–2), then exactly 1000 `Ramp` steps (samples 3–1002), and emits no e-bit
during any of those 1003 steps; from sample 1003 on it is in `Normal` and every step
emits an e-bit; `Normal` is terminal — the phase rank never decreases. -/
theorem pcqng_phase_progression :
    ∀ deltas : ℕ → ℚ,
      (∀ n, n < 3 → (pcqngRun deltas n).phase = PcqngPhase.phInit) ∧
      (∀ n, 3 ≤ n → n < 1003 → (pcqngRun deltas n).phase = PcqngPhase.phRamp) ∧
      (∀ n, 1003 ≤ n → (pcqngRun deltas n).phase = PcqngPhase.phNormal) ∧
      (∀ n, n < 1003 → pcqngOut deltas n = none) ∧
      (∀ n, 1003 ≤ n → (pcqngOut deltas n).isSome = true) ∧
      (∀ m n, m ≤ n →
         phaseRank (pcqngRun deltas m).phase ≤ phaseRank (pcqngRun deltas n).phase) := by
  intro deltas
  have hinit : ∀ n, n < 3 → (pcqngRun deltas n).phase = PcqngPhase.phInit := by
    intro n hn
    rw [(pcqngRun_phase_counter deltas n).1]
    simp [hn]
  have hramp : ∀ n, 3 ≤ n → n < 1003 → (pcqngRun deltas n).phase = PcqngPhase.phRamp := by
    intro n hn hn2
    have hx : ¬ (n < 3) := by omega
    rw [(pcqngRun_phase_counter deltas n).1]
    simp [hx, hn2]
  have hnorm : ∀ n, 1003 ≤ n → (pcqngRun deltas n).phase = PcqngPhase.phNormal := by
    intro n hn
    have hx : ¬ (n < 3) := by omega
    have hy : ¬ (n < 1003) := by omega
    rw [(pcqngRun_phase_counter deltas n).1]
    simp [hx, hy]
  refine ⟨hinit, hramp, hnorm, ?_, ?_, ?_⟩
  · intro n hn
    rcases Nat.lt_or_ge n 3 with h | h
    · exact pcqngStep_none_of_phInit (deltas n) (pcqngRun deltas n) (hinit n h)
    · exact pcqngStep_none_of_phRamp (deltas n) (pcqngRun deltas n) (hramp n h hn)
  · intro n hn
    exact pcqngStep_some_of_phNormal (deltas n) (pcqngRun deltas n) (hnorm n hn)
  · intro m n hmn
    rw [(pcqngRun_phase_counter deltas m).1, (pcqngRun_phase_counter deltas n).1]
    split_ifs <;> simp [phaseRank] <;> omega

/-- Witness for C7: concrete instants of the progression on the constant stream 1. -/
theorem pcqng_phase_progression_witness :
    (pcqngRun (fun _ => (1 : ℚ)) 2).phase = PcqngPhase.phInit ∧
    (pcqngRun (fun _ => (1 : ℚ)) 500).phase = PcqngPhase.phRamp ∧
    pcqngOut (fun _ => (1 : ℚ)) 500 = none ∧
    phaseRank (pcqngRun (fun _ => (1 : ℚ)) 2).phase ≤
      phaseRank (pcqngRun (fun _ => (1 : ℚ)) 500).phase :=
  ⟨(pcqng_phase_progression (fun _ => 1)).1 2 (by omega),
   (pcqng_phase_progression (fun _ => 1)).2.1 500 (by omega) (by omega),
   (pcqng_phase_progression (fun _ => 1)).2.2.2.1 500 (by omega),
   (pcqng_phase_progression (fun _ => 1)).2.2.2.2.2 2 500 (by omega)⟩
